import Mathlib

/-!
Verification of the transit-server schedule diff engine, history store and
response cacher, as a shallow embedding of the Rust sources
(`src/diff/core.rs`, `src/diff/ir.rs`, `src/server.rs`, `src/cacher.rs`).

Modelling conventions.
* A Rust `HashMap<K, V>` is modelled by its lookup function `K → Option V`
  and a `HashSet<K>` by its membership function `K → Bool`.  Rust `HashMap`
  equality (`PartialEq`) is extensional (equal key/value sets), which this
  model renders as function equality.  Loops of the form
  `for k in m.keys() { ... insert ... }` build maps whose lookup is a
  pointwise function of the input lookups; such loops are embedded directly
  as that pointwise function (iteration order of a `HashMap` is irrelevant
  for them).
* The one nested map whose *entries* are compared for equality inside other
  values, `TripIR.stop_times : HashMap<u32, StopTime>`, is modelled as the
  canonical graph `List (Nat × StopTime)` so that trip values keep decidable
  equality.
* `f32` coordinates are modelled by `Int` (the diff engine only ever
  compares them for equality; no float arithmetic occurs in the code under
  verification).
* Rust panics (`expect`, `panic!`) are modelled by a separate, explicitly
  stated definedness predicate next to a total function, or by an
  `Option`-valued result where that is lighter.
-/

/-- `Position` (wire type, `f32` fields modelled as `Int`). -/
structure Position where
  lat : Option Int
  lon : Option Int
deriving DecidableEq

/-- `Transfer` wire type. -/
structure Transfer where
  from_stop_id : Option String
  to_stop_id : Option String
  min_transfer_time : Option Nat
deriving DecidableEq

/-- `Stop` wire type. -/
structure Stop where
  stop_id : Option String
  stop_name : Option String
  parent_stop_id : Option String
  transfers_from : List Transfer
  route_ids : List String
  position : Option Position
deriving DecidableEq

/-- `StopTime` wire type; times are the integer wire representation
(`Option<u32>` produced by `time_str_to_int`). -/
structure StopTime where
  stop_id : Option String
  arrival_time : Option Nat
  departure_time : Option Nat
  stop_sequence : Option Nat
deriving DecidableEq

/-- `Shape` wire type. -/
structure Shape where
  shape_id : Option String
  points : List Position
deriving DecidableEq

/-- `TripIR` from `src/diff/ir.rs`.  `stop_times` is the `u32`-keyed map,
kept as its canonical graph so `TripIR` retains decidable equality. -/
structure TripIR where
  trip_id : String
  stop_times : List (Nat × StopTime)
  headsign : Option String
  shape_id : Option String
  direction : Option Nat
  mask_start_date : String
  date_mask : Nat
deriving DecidableEq

/-- `RouteIR` from `src/diff/ir.rs`: a `route_id` plus the `trip_id`-keyed
trip map. -/
structure RouteIR where
  route_id : String
  trips : String → Option TripIR

/-- `ScheduleIR` from `src/diff/ir.rs`: the three keyed maps. -/
structure ScheduleIR where
  routes : String → Option RouteIR
  shapes : String → Option Shape
  stops : String → Option Stop

/-- `ScheduleUpdate` from `src/diff/core.rs`. -/
structure ScheduleUpdate where
  added_trips : String × String → Option TripIR
  removed_trip_ids : String × String → Bool
  added_shapes : String → Option Shape
  removed_shape_ids : String → Bool
  added_stops : String → Option Stop
  removed_stop_ids : String → Bool

/-- `ScheduleUpdate::default()`: all maps and sets empty. -/
def ScheduleUpdate.empty : ScheduleUpdate where
  added_trips := fun _ => none
  removed_trip_ids := fun _ => false
  added_shapes := fun _ => none
  removed_shape_ids := fun _ => false
  added_stops := fun _ => none
  removed_stop_ids := fun _ => false

/-! ### Pointwise diff/apply/combine cells

The per-key behaviour of the loops in `get_stop_diffs`, `get_shape_diffs`,
`get_trip_diffs`, `apply_to_schedule` and `combine`.  Each loop inserts at
key `k` depending only on the lookups at `k` of its inputs, so its result
map is the pointwise map below. -/

/-- Lookup at one key of the `added` map built by the two loops of
`get_*_diffs`: an entry present on both sides with different values is an
update (goes to `added`), an entry only in `curr` is new. -/
def diffAddedPt {V : Type} [DecidableEq V] (curr prev : Option V) : Option V :=
  match curr, prev with
  | some v, some w => if v = w then none else some v
  | some v, none => some v
  | none, _ => none

/-- Membership at one key of the `removed` set built by the two loops of
`get_*_diffs`: an update is also removed, an entry only in `prev` is
removed. -/
def diffRemovedPt {V : Type} [DecidableEq V] (curr prev : Option V) : Bool :=
  match curr, prev with
  | some v, some w => decide (v ≠ w)
  | none, some _ => true
  | _, none => false

/-- Lookup at one key after `apply_to_schedule` processed one entity class:
all removals happen first, then all insertions, so an added key gets the
added value, a removed (and not re-added) key disappears, anything else is
untouched. -/
def applyPt {V : Type} (added : Option V) (removed : Bool) (base : Option V) :
    Option V :=
  match added with
  | some v => some v
  | none => if removed then none else base

/-- `get_diff_diff_mask` from `src/diff/core.rs`; `none` models the
`panic!("Unexpected situation with diffs")` arm.  The result is
`(in final removal list, which added map to take the value from)`. -/
def get_diff_diff_mask (r1 r2 a1 a2 : Bool) : Option (Bool × Option Bool) :=
  match r1, r2, a1, a2 with
  | true, true, true, true => some (true, some true)
  | false, true, true, true => some (true, some true)
  | true, true, false, true => some (true, some true)
  | true, false, false, true => some (true, some true)
  | false, true, false, true => some (true, some true)
  | true, false, true, false => some (true, some false)
  | true, true, true, false => some (true, none)
  | true, false, false, false => some (true, none)
  | false, true, false, false => some (true, none)
  | false, false, true, false => some (false, some false)
  | false, false, false, true => some (false, some true)
  | false, false, false, false => some (false, none)
  | false, true, true, false => some (false, none)
  | true, false, true, true => none
  | true, true, false, false => none
  | false, false, true, true => none

/-- Lookup at one key of a combined `added` map: `combine` walks the union
of touched ids and inserts per `get_diff_diff_mask` (value from `self` on
`Some(false)`, from `other` on `Some(true)`); untouched ids have mask
`(false,false,false,false)` and are absent, matching the pointwise form. -/
def combineAddedPt {V : Type} (a1 : Option V) (r1 : Bool) (a2 : Option V)
    (r2 : Bool) : Option V :=
  match get_diff_diff_mask r1 r2 a1.isSome a2.isSome with
  | some (_, some false) => a1
  | some (_, some true) => a2
  | _ => none

/-- Membership at one key of a combined `removed` set (first component of
`get_diff_diff_mask`; a panicking mask contributes nothing). -/
def combineRemovedPt {V : Type} (a1 : Option V) (r1 : Bool) (a2 : Option V)
    (r2 : Bool) : Bool :=
  match get_diff_diff_mask r1 r2 a1.isSome a2.isSome with
  | some (rT, _) => rT
  | none => false

/-! ### The diff engine (`src/diff/core.rs`) -/

/-- `ScheduleIR::get_stop_diffs`: `(added_stops, removed_stop_ids)`. -/
def get_stop_diffs (curr prev : ScheduleIR) :
    (String → Option Stop) × (String → Bool) :=
  (fun k => diffAddedPt (curr.stops k) (prev.stops k),
   fun k => diffRemovedPt (curr.stops k) (prev.stops k))

/-- `ScheduleIR::get_shape_diffs`: `(added_shapes, removed_shape_ids)`. -/
def get_shape_diffs (curr prev : ScheduleIR) :
    (String → Option Shape) × (String → Bool) :=
  (fun k => diffAddedPt (curr.shapes k) (prev.shapes k),
   fun k => diffRemovedPt (curr.shapes k) (prev.shapes k))

/-- Lookup of the trip keyed `(route_id, trip_id)`, i.e. the value reached by
`ir.routes[rid].trips[tid]`. -/
def tripsAt (ir : ScheduleIR) (k : String × String) : Option TripIR :=
  (ir.routes k.1).bind fun ro => ro.trips k.2

/-- `ScheduleIR::get_trip_diffs`: the nested loops over
`routes.values()/trips.values()` key every insert by the pair
`(route.route_id, trip.trip_id)`.  In every `ScheduleIR` the program builds,
map keys coincide with these id fields (see `WellFormedIR`), so the loops
denote the pointwise diff of the `(route_id, trip_id)`-indexed lookups. -/
def get_trip_diffs (curr prev : ScheduleIR) :
    (String × String → Option TripIR) × (String × String → Bool) :=
  (fun k => diffAddedPt (tripsAt curr k) (tripsAt prev k),
   fun k => diffRemovedPt (tripsAt curr k) (tripsAt prev k))

/-- The `expect("new route")` side condition of `get_trip_diffs`: the loops
panic when a route holding at least one trip names a `route_id` missing from
the other snapshot. -/
def get_trip_diffs_defined (curr prev : ScheduleIR) : Prop :=
  (∀ r ro, curr.routes r = some ro → (∃ t tr, ro.trips t = some tr) →
    (prev.routes ro.route_id).isSome) ∧
  (∀ r ro, prev.routes r = some ro → (∃ t tr, ro.trips t = some tr) →
    (curr.routes ro.route_id).isSome)

/-- `ScheduleIR::get_diff(self = curr, prev)`. -/
def get_diff (curr prev : ScheduleIR) : ScheduleUpdate where
  added_trips := (get_trip_diffs curr prev).1
  removed_trip_ids := (get_trip_diffs curr prev).2
  added_shapes := (get_shape_diffs curr prev).1
  removed_shape_ids := (get_shape_diffs curr prev).2
  added_stops := (get_stop_diffs curr prev).1
  removed_stop_ids := (get_stop_diffs curr prev).2

/-- `ScheduleUpdate::apply_to_schedule`: removals first, then insertions,
per entity class; trip edits go through `routes[route_id].trips`.  Total
model of the function; its `expect("Unable to find route in schedule")`
panics are captured by `apply_defined`. -/
def apply_to_schedule (u : ScheduleUpdate) (response : ScheduleIR) :
    ScheduleIR where
  shapes := fun k =>
    applyPt (u.added_shapes k) (u.removed_shape_ids k) (response.shapes k)
  stops := fun k =>
    applyPt (u.added_stops k) (u.removed_stop_ids k) (response.stops k)
  routes := fun r =>
    (response.routes r).map fun ro =>
      { ro with
        trips := fun t =>
          applyPt (u.added_trips (r, t)) (u.removed_trip_ids (r, t))
            (ro.trips t) }

/-- Side condition for `apply_to_schedule`: every route named by a removed
or added trip id must exist in the base IR, else the source panics. -/
def apply_defined (u : ScheduleUpdate) (response : ScheduleIR) : Prop :=
  ∀ r t, (u.removed_trip_ids (r, t) = true ∨ (u.added_trips (r, t)).isSome) →
    (response.routes r).isSome

/-- `ScheduleUpdate::combine(self = u1, other = u2)`: walks the union of
touched ids and fills the final maps per `get_diff_diff_mask`; ids outside
the union are untouched, which the pointwise cells reproduce (their mask is
`(false,false,false,false)`).  Total model; the `panic!` arms are captured
by `combine_defined`. -/
def combine (u1 u2 : ScheduleUpdate) : ScheduleUpdate where
  added_trips := fun k =>
    combineAddedPt (u1.added_trips k) (u1.removed_trip_ids k)
      (u2.added_trips k) (u2.removed_trip_ids k)
  removed_trip_ids := fun k =>
    combineRemovedPt (u1.added_trips k) (u1.removed_trip_ids k)
      (u2.added_trips k) (u2.removed_trip_ids k)
  added_shapes := fun k =>
    combineAddedPt (u1.added_shapes k) (u1.removed_shape_ids k)
      (u2.added_shapes k) (u2.removed_shape_ids k)
  removed_shape_ids := fun k =>
    combineRemovedPt (u1.added_shapes k) (u1.removed_shape_ids k)
      (u2.added_shapes k) (u2.removed_shape_ids k)
  added_stops := fun k =>
    combineAddedPt (u1.added_stops k) (u1.removed_stop_ids k)
      (u2.added_stops k) (u2.removed_stop_ids k)
  removed_stop_ids := fun k =>
    combineRemovedPt (u1.added_stops k) (u1.removed_stop_ids k)
      (u2.added_stops k) (u2.removed_stop_ids k)

/-- Side condition for `combine`: no id may hit one of the three
`panic!("Unexpected situation with diffs")` mask rows. -/
def combine_defined (u1 u2 : ScheduleUpdate) : Prop :=
  (∀ k : String × String,
    get_diff_diff_mask (u1.removed_trip_ids k) (u2.removed_trip_ids k)
      (u1.added_trips k).isSome (u2.added_trips k).isSome ≠ none) ∧
  (∀ k : String,
    get_diff_diff_mask (u1.removed_shape_ids k) (u2.removed_shape_ids k)
      (u1.added_shapes k).isSome (u2.added_shapes k).isSome ≠ none) ∧
  (∀ k : String,
    get_diff_diff_mask (u1.removed_stop_ids k) (u2.removed_stop_ids k)
      (u1.added_stops k).isSome (u2.added_stops k).isSome ≠ none)

/-- The invariant every `ScheduleIR` built by the program satisfies: each
route map entry stores its own key in `route_id`, and each trip map entry
stores its own key in `trip_id`.  The nested loops of the diff engine use
these fields as keys, so the pointwise embedding of `get_trip_diffs` and
the Rust loops agree exactly on well-formed IRs. -/
def WellFormedIR (ir : ScheduleIR) : Prop :=
  (∀ r ro, ir.routes r = some ro → ro.route_id = r) ∧
  (∀ r ro t tr, ir.routes r = some ro → ro.trips t = some tr →
    tr.trip_id = t)

/-- Route-key set agreement between two snapshots ("share the same set of
route_ids"). -/
def sameRouteKeys (a b : ScheduleIR) : Prop :=
  ∀ r, (a.routes r).isSome = (b.routes r).isSome

/-! ### Pointwise algebra of diff/apply/combine -/

theorem applyPt_diffPt {V : Type} [DecidableEq V] (a b : Option V) :
    applyPt (diffAddedPt a b) (diffRemovedPt a b) b = a := by
  rcases a with _ | v <;> rcases b with _ | w <;>
    simp [applyPt, diffAddedPt, diffRemovedPt]
  by_cases h : v = w <;> simp [h]

theorem diffPt_touched {V : Type} [DecidableEq V] {a b : Option V}
    (h : diffRemovedPt a b = true ∨ (diffAddedPt a b).isSome = true) :
    a.isSome = true ∨ b.isSome = true := by
  rcases a with _ | v <;> rcases b with _ | w <;>
    simp [diffAddedPt, diffRemovedPt] at h ⊢

theorem combinePt_diffPt {V : Type} [DecidableEq V] (a b c : Option V) :
    get_diff_diff_mask (diffRemovedPt b a) (diffRemovedPt c b)
        (diffAddedPt b a).isSome (diffAddedPt c b).isSome ≠ none ∧
    applyPt
        (combineAddedPt (diffAddedPt b a) (diffRemovedPt b a)
          (diffAddedPt c b) (diffRemovedPt c b))
        (combineRemovedPt (diffAddedPt b a) (diffRemovedPt b a)
          (diffAddedPt c b) (diffRemovedPt c b)) a = c := by
  rcases a with _ | u <;> rcases b with _ | v <;> rcases c with _ | w
  case none.none.none =>
    simp [diffAddedPt, diffRemovedPt, combineAddedPt, combineRemovedPt,
      applyPt, get_diff_diff_mask]
  case none.none.some =>
    simp [diffAddedPt, diffRemovedPt, combineAddedPt, combineRemovedPt,
      applyPt, get_diff_diff_mask]
  case none.some.none =>
    simp [diffAddedPt, diffRemovedPt, combineAddedPt, combineRemovedPt,
      applyPt, get_diff_diff_mask]
  case none.some.some =>
    by_cases h : w = v <;>
      simp [diffAddedPt, diffRemovedPt, combineAddedPt, combineRemovedPt,
        applyPt, get_diff_diff_mask, h]
  case some.none.none =>
    simp [diffAddedPt, diffRemovedPt, combineAddedPt, combineRemovedPt,
      applyPt, get_diff_diff_mask]
  case some.none.some =>
    simp [diffAddedPt, diffRemovedPt, combineAddedPt, combineRemovedPt,
      applyPt, get_diff_diff_mask]
  case some.some.none =>
    by_cases h : v = u <;>
      simp [diffAddedPt, diffRemovedPt, combineAddedPt, combineRemovedPt,
        applyPt, get_diff_diff_mask, h]
  case some.some.some =>
    by_cases h1 : v = u
    · subst h1
      by_cases h2 : w = v <;>
        simp [diffAddedPt, diffRemovedPt, combineAddedPt, combineRemovedPt,
          applyPt, get_diff_diff_mask, h2]
    · by_cases h2 : w = v
      · subst h2
        simp [diffAddedPt, diffRemovedPt, combineAddedPt, combineRemovedPt,
          applyPt, get_diff_diff_mask, h1]
      · simp [diffAddedPt, diffRemovedPt, combineAddedPt, combineRemovedPt,
          applyPt, get_diff_diff_mask, h1, h2]

attribute [ext] RouteIR ScheduleIR ScheduleUpdate

/-- A trip reachable through `tripsAt` forces its route to exist. -/
theorem routes_isSome_of_tripsAt {ir : ScheduleIR} {k : String × String}
    (h : (tripsAt ir k).isSome = true) : (ir.routes k.1).isSome = true := by
  unfold tripsAt at h
  cases hr : ir.routes k.1 <;> simp [hr] at h ⊢

/-- Round trip of the diff engine on well-formed snapshots over one route
key set: applying `diff(A, B)` to `B` restores `A`. -/
theorem apply_get_diff_eq (A B : ScheduleIR) (hA : WellFormedIR A)
    (hB : WellFormedIR B) (hR : sameRouteKeys A B) :
    apply_to_schedule (get_diff A B) B = A := by
  have hshapes : (apply_to_schedule (get_diff A B) B).shapes = A.shapes := by
    funext k
    exact applyPt_diffPt (A.shapes k) (B.shapes k)
  have hstops : (apply_to_schedule (get_diff A B) B).stops = A.stops := by
    funext k
    exact applyPt_diffPt (A.stops k) (B.stops k)
  have hroutes : (apply_to_schedule (get_diff A B) B).routes = A.routes := by
    funext r
    cases hBr : B.routes r with
    | none =>
      have hAr : A.routes r = none := by
        have h := hR r
        rw [hBr] at h
        simpa [Option.isSome_iff_exists] using h
      simp [apply_to_schedule, hBr, hAr]
    | some roB =>
      have hAr : ∃ roA, A.routes r = some roA := by
        have h := hR r
        rw [hBr] at h
        simpa [Option.isSome_iff_exists] using h
      obtain ⟨roA, hAr⟩ := hAr
      have hidB : roB.route_id = r := hB.1 r roB hBr
      have hidA : roA.route_id = r := hA.1 r roA hAr
      show ((B.routes r).map fun ro =>
          { ro with
            trips := fun t =>
              applyPt ((get_diff A B).added_trips (r, t))
                ((get_diff A B).removed_trip_ids (r, t)) (ro.trips t) }) =
        A.routes r
      rw [hBr, hAr, Option.map_some']
      refine congrArg some (RouteIR.ext (hidB.trans hidA.symm) ?_)
      funext t
      have hb : tripsAt B (r, t) = roB.trips t := by simp [tripsAt, hBr]
      have ha : tripsAt A (r, t) = roA.trips t := by simp [tripsAt, hAr]
      simpa [get_diff, get_trip_diffs, hb, ha] using
        applyPt_diffPt (roA.trips t) (roB.trips t)
  exact ScheduleIR.ext hroutes hshapes hstops

/-- `get_trip_diffs` cannot hit its `expect("new route")` panic on
well-formed snapshots over one route key set. -/
theorem get_trip_diffs_defined_of (A B : ScheduleIR) (hA : WellFormedIR A)
    (hB : WellFormedIR B) (hR : sameRouteKeys A B) :
    get_trip_diffs_defined A B := by
  constructor
  · intro r ro hro _
    rw [hA.1 r ro hro, ← hR r, hro]
    rfl
  · intro r ro hro _
    rw [hB.1 r ro hro, hR r, hro]
    rfl

/-- `apply_to_schedule` cannot hit its missing-route panic when applying a
diff back to the snapshot it was computed against. -/
theorem apply_defined_of_diff (A B : ScheduleIR) (hR : sameRouteKeys A B) :
    apply_defined (get_diff A B) B := by
  intro r t h
  have htouch :
      (tripsAt A (r, t)).isSome = true ∨ (tripsAt B (r, t)).isSome = true := by
    refine diffPt_touched ?_
    simpa [get_diff, get_trip_diffs] using h
  rcases htouch with h1 | h2
  · rw [← hR r]
    exact routes_isSome_of_tripsAt h1
  · exact routes_isSome_of_tripsAt h2

/-- A combined cell that removes or adds something comes from at least one
non-trivial input bit. -/
theorem combinePt_touched {V : Type} {a1 a2 : Option V} {r1 r2 : Bool}
    (h : combineRemovedPt a1 r1 a2 r2 = true ∨
      (combineAddedPt a1 r1 a2 r2).isSome = true) :
    r1 = true ∨ r2 = true ∨ a1.isSome = true ∨ a2.isSome = true := by
  cases r1 <;> cases r2 <;> cases a1 <;> cases a2 <;>
    simp_all [combineAddedPt, combineRemovedPt, get_diff_diff_mask]

/-- Composing two successive diffs with `combine` and applying the result to
the oldest snapshot reaches the newest one. -/
theorem apply_combine_diff_eq (A B C : ScheduleIR) (hA : WellFormedIR A)
    (hC : WellFormedIR C) (hAC : sameRouteKeys A C) :
    apply_to_schedule (combine (get_diff B A) (get_diff C B)) A = C := by
  have hshapes :
      (apply_to_schedule (combine (get_diff B A) (get_diff C B)) A).shapes =
        C.shapes := by
    funext k
    simpa [combine, get_diff, get_shape_diffs, apply_to_schedule] using
      (combinePt_diffPt (A.shapes k) (B.shapes k) (C.shapes k)).2
  have hstops :
      (apply_to_schedule (combine (get_diff B A) (get_diff C B)) A).stops =
        C.stops := by
    funext k
    simpa [combine, get_diff, get_stop_diffs, apply_to_schedule] using
      (combinePt_diffPt (A.stops k) (B.stops k) (C.stops k)).2
  have hroutes :
      (apply_to_schedule (combine (get_diff B A) (get_diff C B)) A).routes =
        C.routes := by
    funext r
    cases hAr : A.routes r with
    | none =>
      have hCr : C.routes r = none := by
        have h := hAC r
        rw [hAr] at h
        simpa [Option.isSome_iff_exists] using h.symm
      simp [apply_to_schedule, hAr, hCr]
    | some roA =>
      have hCr : ∃ roC, C.routes r = some roC := by
        have h := hAC r
        rw [hAr] at h
        simpa [Option.isSome_iff_exists] using h.symm
      obtain ⟨roC, hCr⟩ := hCr
      have hidA : roA.route_id = r := hA.1 r roA hAr
      have hidC : roC.route_id = r := hC.1 r roC hCr
      show ((A.routes r).map fun ro =>
          { ro with
            trips := fun t =>
              applyPt
                ((combine (get_diff B A) (get_diff C B)).added_trips (r, t))
                ((combine (get_diff B A) (get_diff C B)).removed_trip_ids
                  (r, t))
                (ro.trips t) }) = C.routes r
      rw [hAr, hCr, Option.map_some']
      refine congrArg some (RouteIR.ext (hidA.trans hidC.symm) ?_)
      funext t
      have ha : tripsAt A (r, t) = roA.trips t := by simp [tripsAt, hAr]
      have hc : tripsAt C (r, t) = roC.trips t := by simp [tripsAt, hCr]
      simpa [combine, get_diff, get_trip_diffs, ha, hc] using
        (combinePt_diffPt (roA.trips t) (tripsAt B (r, t))
          (roC.trips t)).2
  exact ScheduleIR.ext hroutes hshapes hstops

/-- Two successive diffs never drive `combine` into one of its `panic!`
mask rows. -/
theorem combine_defined_of_diffs (A B C : ScheduleIR) :
    combine_defined (get_diff B A) (get_diff C B) := by
  refine ⟨fun k => ?_, fun k => ?_, fun k => ?_⟩
  · simpa [get_diff, get_trip_diffs] using
      (combinePt_diffPt (tripsAt A k) (tripsAt B k) (tripsAt C k)).1
  · simpa [get_diff, get_shape_diffs] using
      (combinePt_diffPt (A.shapes k) (B.shapes k) (C.shapes k)).1
  · simpa [get_diff, get_stop_diffs] using
      (combinePt_diffPt (A.stops k) (B.stops k) (C.stops k)).1

/-- Applying the combination of two successive diffs to the oldest snapshot
never hits the missing-route panic of `apply_to_schedule`. -/
theorem apply_defined_of_combine (A B C : ScheduleIR)
    (hAB : sameRouteKeys A B) (hBC : sameRouteKeys B C) :
    apply_defined (combine (get_diff B A) (get_diff C B)) A := by
  intro r t h
  have h4 := combinePt_touched (by simpa [combine, get_diff, get_trip_diffs]
    using h)
  have hBr : (tripsAt B (r, t)).isSome = true → (A.routes r).isSome = true :=
    fun hb => by rw [hAB r]; exact routes_isSome_of_tripsAt hb
  have hCr : (tripsAt C (r, t)).isSome = true → (A.routes r).isSome = true :=
    fun hc => by rw [hAB r, hBC r]; exact routes_isSome_of_tripsAt hc
  have hAr : (tripsAt A (r, t)).isSome = true → (A.routes r).isSome = true :=
    routes_isSome_of_tripsAt
  rcases h4 with h1 | h2 | h3 | h5
  · rcases diffPt_touched (Or.inl h1) with hb | ha
    · exact hBr hb
    · exact hAr ha
  · rcases diffPt_touched (Or.inl h2) with hc | hb
    · exact hCr hc
    · exact hBr hb
  · rcases diffPt_touched (Or.inr h3) with hb | ha
    · exact hBr hb
    · exact hAr ha
  · rcases diffPt_touched (Or.inr h5) with hc | hb
    · exact hCr hc
    · exact hBr hb

/-! ### Concrete snapshots used by witnesses and counterexamples -/

/-- A concrete stop value. -/
def exStop1 : Stop where
  stop_id := some "s1"
  stop_name := none
  parent_stop_id := none
  transfers_from := []
  route_ids := []
  position := some { lat := some 1, lon := some 2 }

/-- A second concrete stop value, different from `exStop1`. -/
def exStop2 : Stop where
  stop_id := some "s1"
  stop_name := some "Name"
  parent_stop_id := none
  transfers_from := []
  route_ids := []
  position := some { lat := some 4, lon := some 4 }

/-- A concrete trip value. -/
def exTrip1 : TripIR where
  trip_id := "t1"
  stop_times := []
  headsign := none
  shape_id := none
  direction := none
  mask_start_date := "20250401"
  date_mask := 1

/-- Snapshot with one route `r1` holding trip `t1` and one stop `s1`. -/
def exA : ScheduleIR where
  routes := fun r =>
    if r = "r1" then
      some { route_id := "r1",
             trips := fun t => if t = "t1" then some exTrip1 else none }
    else none
  shapes := fun _ => none
  stops := fun k => if k = "s1" then some exStop1 else none

/-- Snapshot with the same route `r1` but no trips and no stops. -/
def exB : ScheduleIR where
  routes := fun r =>
    if r = "r1" then
      some { route_id := "r1", trips := fun _ => none }
    else none
  shapes := fun _ => none
  stops := fun _ => none

theorem exA_wf : WellFormedIR exA := by
  constructor
  · intro r ro h
    simp only [exA] at h
    split at h
    · cases h
      simp_all
    · cases h
  · intro r ro t tr h ht
    simp only [exA] at h
    split at h
    · cases h
      simp only at ht
      split at ht
      · cases ht
        simp_all [exTrip1]
      · cases ht
    · cases h

theorem exB_wf : WellFormedIR exB := by
  constructor
  · intro r ro h
    simp only [exB] at h
    split at h
    · cases h
      simp_all
    · cases h
  · intro r ro t tr h ht
    simp only [exB] at h
    split at h
    · cases h
      cases ht
    · cases h

theorem exA_exB_routes : sameRouteKeys exA exB := by
  intro r
  by_cases hr : r = "r1" <;> simp [exA, exB, hr]

/-- C1: round-trip of diff and apply.  For well-formed snapshots `A`, `B`
sharing one route-key set, `diff(A, B)` is free of the `expect("new
route")` panic, applying it to `B` hits no missing route, and the
application restores `A` exactly. -/
theorem c1_diff_apply_round_trip (A B : ScheduleIR) (hA : WellFormedIR A)
    (hB : WellFormedIR B) (hR : sameRouteKeys A B) :
    get_trip_diffs_defined A B ∧ apply_defined (get_diff A B) B ∧
    apply_to_schedule (get_diff A B) B = A :=
  ⟨get_trip_diffs_defined_of A B hA hB hR, apply_defined_of_diff A B hR,
    apply_get_diff_eq A B hA hB hR⟩

theorem c1_diff_apply_round_trip_witness :
    WellFormedIR exA ∧ WellFormedIR exB ∧ sameRouteKeys exA exB ∧
    apply_to_schedule (get_diff exA exB) exB = exA :=
  ⟨exA_wf, exB_wf, exA_exB_routes,
    (c1_diff_apply_round_trip exA exB exA_wf exB_wf exA_exB_routes).2.2⟩

/-- C2 (amended): delta composition at the origin snapshot.  For
well-formed snapshots `A`, `B`, `C` over one route-key set, both diffs are
panic-free, their combination is panic-free and applies cleanly to `A`,
`apply(combine(diff(B,A), diff(C,B)), A) = C`, and this agrees with the
sequential `apply(diff(C,B), apply(diff(B,A), A))`.  The arbitrary-base
form of the contract is refuted by
`c2_delta_composition_counterexample`. -/
theorem c2_delta_composition (A B C : ScheduleIR) (hA : WellFormedIR A)
    (hB : WellFormedIR B) (hC : WellFormedIR C)
    (hAB : sameRouteKeys A B) (hBC : sameRouteKeys B C) :
    get_trip_diffs_defined B A ∧ get_trip_diffs_defined C B ∧
    combine_defined (get_diff B A) (get_diff C B) ∧
    apply_defined (combine (get_diff B A) (get_diff C B)) A ∧
    apply_to_schedule (combine (get_diff B A) (get_diff C B)) A = C ∧
    apply_to_schedule (get_diff C B) (apply_to_schedule (get_diff B A) A) =
      C := by
  have hBA : sameRouteKeys B A := fun r => (hAB r).symm
  have hCB : sameRouteKeys C B := fun r => (hBC r).symm
  have hAC : sameRouteKeys A C := fun r => (hAB r).trans (hBC r)
  refine ⟨get_trip_diffs_defined_of B A hB hA hBA,
    get_trip_diffs_defined_of C B hC hB hCB,
    combine_defined_of_diffs A B C,
    apply_defined_of_combine A B C hAB hBC,
    apply_combine_diff_eq A B C hA hC hAC, ?_⟩
  rw [apply_get_diff_eq B A hB hA hBA]
  exact apply_get_diff_eq C B hC hB hCB

theorem c2_delta_composition_witness :
    WellFormedIR exA ∧ WellFormedIR exB ∧ sameRouteKeys exA exB ∧
    sameRouteKeys exB exA ∧
    apply_to_schedule (combine (get_diff exB exA) (get_diff exA exB)) exA =
      exA :=
  ⟨exA_wf, exB_wf, exA_exB_routes, fun r => (exA_exB_routes r).symm,
    (c2_delta_composition exA exB exA exA_wf exB_wf exA_wf exA_exB_routes
      (fun r => (exA_exB_routes r).symm)).2.2.2.2.1⟩

/-- Snapshot with no routes, no shapes, no stops. -/
def emptyIR : ScheduleIR where
  routes := fun _ => none
  shapes := fun _ => none
  stops := fun _ => none

/-- Snapshot with no routes and the single stop `s1`. -/
def oneStopIR : ScheduleIR where
  routes := fun _ => none
  shapes := fun _ => none
  stops := fun k => if k = "s1" then some exStop1 else none

/-- C2 counterexample: the arbitrary-base half of the claim fails.  With
`A = C = emptyIR` and `B = oneStopIR`, stop `s1` is added by
`u1 = diff(B, A)` and removed by `u2 = diff(C, B)` (mask `0110`), so
`combine(u1, u2)` touches it not at all; a base that already holds `s1`
keeps it under the combined update but loses it under sequential
application, although every definedness side condition holds on both
sides. -/
theorem c2_delta_composition_counterexample :
    WellFormedIR emptyIR ∧ WellFormedIR oneStopIR ∧
    sameRouteKeys emptyIR oneStopIR ∧
    combine_defined (get_diff oneStopIR emptyIR)
      (get_diff emptyIR oneStopIR) ∧
    apply_defined (combine (get_diff oneStopIR emptyIR)
      (get_diff emptyIR oneStopIR)) oneStopIR ∧
    apply_defined (get_diff oneStopIR emptyIR) oneStopIR ∧
    apply_defined (get_diff emptyIR oneStopIR)
      (apply_to_schedule (get_diff oneStopIR emptyIR) oneStopIR) ∧
    apply_to_schedule (combine (get_diff oneStopIR emptyIR)
        (get_diff emptyIR oneStopIR)) oneStopIR ≠
      apply_to_schedule (get_diff emptyIR oneStopIR)
        (apply_to_schedule (get_diff oneStopIR emptyIR) oneStopIR) := by
  refine ⟨⟨(fun r ro h => nomatch h), (fun r ro t tr h => nomatch h)⟩,
    ⟨(fun r ro h => nomatch h), (fun r ro t tr h => nomatch h)⟩,
    fun r => rfl,
    combine_defined_of_diffs emptyIR oneStopIR emptyIR,
    fun r t h => ?_, fun r t h => ?_, fun r t h => ?_, fun heq => ?_⟩
  · simp [combine, get_diff, get_trip_diffs, tripsAt, emptyIR, oneStopIR,
      combineAddedPt, combineRemovedPt, diffAddedPt, diffRemovedPt,
      get_diff_diff_mask] at h
  · simp [get_diff, get_trip_diffs, tripsAt, emptyIR, oneStopIR,
      diffAddedPt, diffRemovedPt] at h
  · simp [get_diff, get_trip_diffs, tripsAt, emptyIR, oneStopIR,
      diffAddedPt, diffRemovedPt] at h
  · have h1 := congrArg (fun ir => ir.stops "s1") heq
    simp [apply_to_schedule, combine, get_diff, get_stop_diffs, emptyIR,
      oneStopIR, combineAddedPt, combineRemovedPt, diffAddedPt,
      diffRemovedPt, get_diff_diff_mask, applyPt] at h1

/-- The 16-row combine table exactly as written in the specification
(§4.2.3): for mask `(r1, r2, a1, a2)`, whether the id lands in the combined
removed set and, if it lands in the combined added map, which update the
value is taken from (`false` = `u1`, `true` = `u2`); `none` is the required
logic error on the three impossible masks. -/
def spec_combine_table (r1 r2 a1 a2 : Bool) : Option (Bool × Option Bool) :=
  match r1, r2, a1, a2 with
  | false, false, false, false => some (false, none)
  | false, false, false, true => some (false, some true)
  | false, false, true, false => some (false, some false)
  | false, true, false, false => some (true, none)
  | false, true, false, true => some (true, some true)
  | false, true, true, false => some (false, none)
  | false, true, true, true => some (true, some true)
  | true, false, false, false => some (true, none)
  | true, false, false, true => some (true, some true)
  | true, false, true, false => some (true, some false)
  | true, true, false, true => some (true, some true)
  | true, true, true, false => some (true, none)
  | true, true, true, true => some (true, some true)
  | true, false, true, true => none
  | true, true, false, false => none
  | false, false, true, true => none

/-- C5: `combine` follows the per-id mask table.  The code's
`get_diff_diff_mask` coincides with the spec's 16-row table on every mask
(in particular mask `0110` yields neither removed nor added, and the three
impossible masks are the `panic!` rows, modelled as `none`), and for every
id the combined removed set and added map of `combine` are exactly what the
table dictates for the id's 4 membership bits, the added value taken from
the update the table names. -/
theorem c5_combine_mask_table :
    (∀ r1 r2 a1 a2, get_diff_diff_mask r1 r2 a1 a2 =
      spec_combine_table r1 r2 a1 a2) ∧
    get_diff_diff_mask false true true false = some (false, none) ∧
    get_diff_diff_mask true false true true = none ∧
    get_diff_diff_mask true true false false = none ∧
    get_diff_diff_mask false false true true = none ∧
    (∀ u1 u2 : ScheduleUpdate, ∀ k : String,
      (combine u1 u2).removed_stop_ids k =
        (match spec_combine_table (u1.removed_stop_ids k)
            (u2.removed_stop_ids k) (u1.added_stops k).isSome
            (u2.added_stops k).isSome with
          | some (rT, _) => rT
          | none => false) ∧
      (combine u1 u2).added_stops k =
        (match spec_combine_table (u1.removed_stop_ids k)
            (u2.removed_stop_ids k) (u1.added_stops k).isSome
            (u2.added_stops k).isSome with
          | some (_, some false) => u1.added_stops k
          | some (_, some true) => u2.added_stops k
          | _ => none)) ∧
    (∀ u1 u2 : ScheduleUpdate, ∀ k : String,
      (combine u1 u2).removed_shape_ids k =
        (match spec_combine_table (u1.removed_shape_ids k)
            (u2.removed_shape_ids k) (u1.added_shapes k).isSome
            (u2.added_shapes k).isSome with
          | some (rT, _) => rT
          | none => false) ∧
      (combine u1 u2).added_shapes k =
        (match spec_combine_table (u1.removed_shape_ids k)
            (u2.removed_shape_ids k) (u1.added_shapes k).isSome
            (u2.added_shapes k).isSome with
          | some (_, some false) => u1.added_shapes k
          | some (_, some true) => u2.added_shapes k
          | _ => none)) ∧
    (∀ u1 u2 : ScheduleUpdate, ∀ k : String × String,
      (combine u1 u2).removed_trip_ids k =
        (match spec_combine_table (u1.removed_trip_ids k)
            (u2.removed_trip_ids k) (u1.added_trips k).isSome
            (u2.added_trips k).isSome with
          | some (rT, _) => rT
          | none => false) ∧
      (combine u1 u2).added_trips k =
        (match spec_combine_table (u1.removed_trip_ids k)
            (u2.removed_trip_ids k) (u1.added_trips k).isSome
            (u2.added_trips k).isSome with
          | some (_, some false) => u1.added_trips k
          | some (_, some true) => u2.added_trips k
          | _ => none)) := by
  have hcrs : ∀ u1 u2 : ScheduleUpdate, ∀ k : String,
      (combine u1 u2).removed_stop_ids k =
        combineRemovedPt (u1.added_stops k) (u1.removed_stop_ids k)
          (u2.added_stops k) (u2.removed_stop_ids k) := fun _ _ _ => rfl
  have hcas : ∀ u1 u2 : ScheduleUpdate, ∀ k : String,
      (combine u1 u2).added_stops k =
        combineAddedPt (u1.added_stops k) (u1.removed_stop_ids k)
          (u2.added_stops k) (u2.removed_stop_ids k) := fun _ _ _ => rfl
  have hcrh : ∀ u1 u2 : ScheduleUpdate, ∀ k : String,
      (combine u1 u2).removed_shape_ids k =
        combineRemovedPt (u1.added_shapes k) (u1.removed_shape_ids k)
          (u2.added_shapes k) (u2.removed_shape_ids k) := fun _ _ _ => rfl
  have hcah : ∀ u1 u2 : ScheduleUpdate, ∀ k : String,
      (combine u1 u2).added_shapes k =
        combineAddedPt (u1.added_shapes k) (u1.removed_shape_ids k)
          (u2.added_shapes k) (u2.removed_shape_ids k) := fun _ _ _ => rfl
  have hcrt : ∀ u1 u2 : ScheduleUpdate, ∀ k : String × String,
      (combine u1 u2).removed_trip_ids k =
        combineRemovedPt (u1.added_trips k) (u1.removed_trip_ids k)
          (u2.added_trips k) (u2.removed_trip_ids k) := fun _ _ _ => rfl
  have hcat : ∀ u1 u2 : ScheduleUpdate, ∀ k : String × String,
      (combine u1 u2).added_trips k =
        combineAddedPt (u1.added_trips k) (u1.removed_trip_ids k)
          (u2.added_trips k) (u2.removed_trip_ids k) := fun _ _ _ => rfl
  refine ⟨by decide, rfl, rfl, rfl, rfl, ?_, ?_, ?_⟩
  · intro u1 u2 k
    rw [hcrs, hcas]
    cases hr1 : u1.removed_stop_ids k <;> cases hr2 : u2.removed_stop_ids k <;>
      cases ha1 : u1.added_stops k <;> cases ha2 : u2.added_stops k <;>
      simp [combineAddedPt, combineRemovedPt, get_diff_diff_mask,
        spec_combine_table]
  · intro u1 u2 k
    rw [hcrh, hcah]
    cases hr1 : u1.removed_shape_ids k <;>
      cases hr2 : u2.removed_shape_ids k <;>
      cases ha1 : u1.added_shapes k <;> cases ha2 : u2.added_shapes k <;>
      simp [combineAddedPt, combineRemovedPt, get_diff_diff_mask,
        spec_combine_table]
  · intro u1 u2 k
    rw [hcrt, hcat]
    cases hr1 : u1.removed_trip_ids k <;> cases hr2 : u2.removed_trip_ids k <;>
      cases ha1 : u1.added_trips k <;> cases ha2 : u2.added_trips k <;>
      simp [combineAddedPt, combineRemovedPt, get_diff_diff_mask,
        spec_combine_table]

/-- C8: disjointness of a produced diff.  For stops and shapes (the cited
diff loops), an id is in both the removed set and the added map of
`diff(curr, prev)` exactly when it exists in both snapshots with different
values; an id only in `curr` is added (with its `curr` value) and not
removed; an id only in `prev` is removed and not added. -/
theorem c8_diff_disjointness (curr prev : ScheduleIR) (k : String) :
    (((get_diff curr prev).removed_stop_ids k = true ∧
        ((get_diff curr prev).added_stops k).isSome = true) ↔
      (∃ v w, curr.stops k = some v ∧ prev.stops k = some w ∧ v ≠ w)) ∧
    ((curr.stops k).isSome = true → prev.stops k = none →
      (get_diff curr prev).added_stops k = curr.stops k ∧
      (get_diff curr prev).removed_stop_ids k = false) ∧
    ((prev.stops k).isSome = true → curr.stops k = none →
      (get_diff curr prev).added_stops k = none ∧
      (get_diff curr prev).removed_stop_ids k = true) ∧
    (((get_diff curr prev).removed_shape_ids k = true ∧
        ((get_diff curr prev).added_shapes k).isSome = true) ↔
      (∃ v w, curr.shapes k = some v ∧ prev.shapes k = some w ∧ v ≠ w)) ∧
    ((curr.shapes k).isSome = true → prev.shapes k = none →
      (get_diff curr prev).added_shapes k = curr.shapes k ∧
      (get_diff curr prev).removed_shape_ids k = false) ∧
    ((prev.shapes k).isSome = true → curr.shapes k = none →
      (get_diff curr prev).added_shapes k = none ∧
      (get_diff curr prev).removed_shape_ids k = true) := by
  have hst : ∀ x : ScheduleIR, ∀ y : ScheduleIR,
      (get_diff x y).added_stops k = diffAddedPt (x.stops k) (y.stops k) ∧
      (get_diff x y).removed_stop_ids k =
        diffRemovedPt (x.stops k) (y.stops k) := fun _ _ => ⟨rfl, rfl⟩
  have hsh : ∀ x : ScheduleIR, ∀ y : ScheduleIR,
      (get_diff x y).added_shapes k = diffAddedPt (x.shapes k) (y.shapes k) ∧
      (get_diff x y).removed_shape_ids k =
        diffRemovedPt (x.shapes k) (y.shapes k) := fun _ _ => ⟨rfl, rfl⟩
  rw [(hst curr prev).1, (hst curr prev).2, (hsh curr prev).1,
    (hsh curr prev).2]
  constructor
  · cases hc : curr.stops k with
    | none => cases hp : prev.stops k <;> simp [diffAddedPt, diffRemovedPt]
    | some v =>
      cases hp : prev.stops k with
      | none => simp [diffAddedPt, diffRemovedPt]
      | some w => by_cases h : v = w <;> simp [diffAddedPt, diffRemovedPt, h]
  refine ⟨?_, ?_, ?_, ?_, ?_⟩
  · intro h1 h2
    cases hc : curr.stops k <;> simp [hc] at h1 ⊢ <;>
      simp [diffAddedPt, diffRemovedPt, h2, hc]
  · intro h1 h2
    cases hp : prev.stops k <;> simp [hp] at h1 ⊢ <;>
      simp [diffAddedPt, diffRemovedPt, h2, hp]
  · cases hc : curr.shapes k with
    | none => cases hp : prev.shapes k <;> simp [diffAddedPt, diffRemovedPt]
    | some v =>
      cases hp : prev.shapes k with
      | none => simp [diffAddedPt, diffRemovedPt]
      | some w => by_cases h : v = w <;> simp [diffAddedPt, diffRemovedPt, h]
  · intro h1 h2
    cases hc : curr.shapes k <;> simp [hc] at h1 ⊢ <;>
      simp [diffAddedPt, diffRemovedPt, h2, hc]
  · intro h1 h2
    cases hp : prev.shapes k <;> simp [hp] at h1 ⊢ <;>
      simp [diffAddedPt, diffRemovedPt, h2, hp]

/-- Shape with one point, as in spec scenario S1. -/
def exShapePt (id : String) (p q : Int) : Shape where
  shape_id := some id
  points := [{ lat := some p, lon := some q }]

/-- S1 snapshot `A`: shapes `{"s1": [(1,2)], "s2": [(2,3)]}`. -/
def s1A : ScheduleIR where
  routes := fun _ => none
  shapes := fun k =>
    if k = "s1" then some (exShapePt "s1" 1 2)
    else if k = "s2" then some (exShapePt "s2" 2 3)
    else none
  stops := fun _ => none

/-- S1 snapshot `B`: shapes `{"s2": [(2,3)], "s3": [(3,4)]}`. -/
def s1B : ScheduleIR where
  routes := fun _ => none
  shapes := fun k =>
    if k = "s2" then some (exShapePt "s2" 2 3)
    else if k = "s3" then some (exShapePt "s3" 3 4)
    else none
  stops := fun _ => none

theorem c8_diff_disjointness_witness :
    (get_diff s1B s1A).removed_shape_ids "s1" = true ∧
    (get_diff s1B s1A).added_shapes "s1" = none ∧
    (get_diff s1B s1A).added_shapes "s3" = some (exShapePt "s3" 3 4) ∧
    (get_diff s1B s1A).removed_shape_ids "s3" = false ∧
    (get_diff s1B s1A).removed_shape_ids "s2" = false ∧
    (get_diff s1B s1A).added_shapes "s2" = none := by
  have h1 := ((c8_diff_disjointness s1B s1A "s1").2.2.2.2.2 (by decide)
    (by decide))
  have h3 := ((c8_diff_disjointness s1B s1A "s3").2.2.2.2.1 (by decide)
    (by decide))
  exact ⟨h1.2, h1.1, by rw [h3.1]; decide, h3.2, by decide, by decide⟩

/-- C10: frame property of `apply_to_schedule`.  For a panic-free
application, every stop and shape id outside the update's added/removed
footprint keeps its exact value, every `(route_id, trip_id)` outside
`added_trips`/`removed_trip_ids` keeps its exact trip value, and the route
key set is unchanged, each surviving route keeping its `route_id`. -/
theorem c10_apply_frame (u : ScheduleUpdate) (ir : ScheduleIR)
    (hdef : apply_defined u ir) :
    (∀ k, u.added_stops k = none → u.removed_stop_ids k = false →
      (apply_to_schedule u ir).stops k = ir.stops k) ∧
    (∀ k, u.added_shapes k = none → u.removed_shape_ids k = false →
      (apply_to_schedule u ir).shapes k = ir.shapes k) ∧
    (∀ k : String × String, u.added_trips k = none →
      u.removed_trip_ids k = false →
      tripsAt (apply_to_schedule u ir) k = tripsAt ir k) ∧
    (∀ r, ((apply_to_schedule u ir).routes r).isSome =
      (ir.routes r).isSome) ∧
    (∀ r ro, (apply_to_schedule u ir).routes r = some ro →
      ∃ ro2, ir.routes r = some ro2 ∧ ro.route_id = ro2.route_id) := by
  refine ⟨fun k h1 h2 => ?_, fun k h1 h2 => ?_, fun k h1 h2 => ?_,
    fun r => ?_, fun r ro hro => ?_⟩
  · simp [apply_to_schedule, applyPt, h1, h2]
  · simp [apply_to_schedule, applyPt, h1, h2]
  · rcases k with ⟨r, t⟩
    cases hr : ir.routes r <;>
      simp [tripsAt, apply_to_schedule, applyPt, h1, h2, hr]
  · cases hr : ir.routes r <;> simp [apply_to_schedule, hr]
  · cases hr : ir.routes r with
    | none => simp [apply_to_schedule, hr] at hro
    | some ro2 =>
      refine ⟨ro2, rfl, ?_⟩
      simp [apply_to_schedule, hr] at hro
      rw [← hro]

theorem c10_apply_frame_witness :
    apply_defined ScheduleUpdate.empty exA ∧
    (apply_to_schedule ScheduleUpdate.empty exA).stops "s1" =
      exA.stops "s1" := by
  have hdef : apply_defined ScheduleUpdate.empty exA := by
    intro r t h
    simp [ScheduleUpdate.empty] at h
  exact ⟨hdef, (c10_apply_frame ScheduleUpdate.empty exA hdef).1 "s1" rfl rfl⟩

/-! ### `time_str_to_int` and the stop-time conversion (`src/diff/ir.rs`) -/

/-- Rust `str::split(":")` on the character list of a string: splits at
every separator, keeping empty pieces (`""` yields `[""]`). -/
def splitOnChar (sep : Char) : List Char → List (List Char)
  | [] => [[]]
  | c :: cs =>
    if c = sep then [] :: splitOnChar sep cs
    else
      match splitOnChar sep cs with
      | [] => [[c]]
      | p :: ps => (c :: p) :: ps

def isDigits (cs : List Char) : Bool := cs.all fun c => c.isDigit

def digitsVal (cs : List Char) : Nat :=
  cs.foldl (fun acc c => acc * 10 + (c.toNat - 48)) 0

/-- Rust `p.parse::<u32>().unwrap_or_default()`: an optional leading `+`
followed by one or more ASCII digits whose value fits in `u32` parses to
that value; every other input is a parse error and defaults to `0`. -/
def rust_parse_u32 (cs : List Char) : Nat :=
  let ds := match cs with
    | '+' :: rest => rest
    | _ => cs
  if ds ≠ [] ∧ isDigits ds = true ∧ digitsVal ds < 2 ^ 32 then digitsVal ds
  else 0

/-- The accumulation loop of `time_str_to_int`:
`res += part * 60u32.pow(i as u32)` over the enumerated parts, with `u32`
wrap-around arithmetic made explicit as `% 2 ^ 32`. -/
def accParts : List Nat → Nat → Nat → Nat
  | [], _, res => res
  | p :: ps, i, res =>
    accParts ps (i + 1) ((res + p * (60 ^ i % 2 ^ 32) % 2 ^ 32) % 2 ^ 32)

/-- `time_str_to_int` from `src/diff/ir.rs`: split on `":"`, parse each
part as `u32` defaulting to `0`, and sum `part_i * 60^i`. -/
def time_str_to_int (time : Option String) : Option Nat :=
  match time with
  | none => none
  | some s =>
    some (accParts ((splitOnChar ':' s.data).map rust_parse_u32) 0 0)

/-- The gtfs-parsing `StopTime` row as consumed by the IR builder. -/
structure GtfsStopTime where
  stop_id : Option String
  arrival_time : Option String
  departure_time : Option String
  stop_sequence : Nat
deriving DecidableEq

/-- `impl From<gtfs_parsing::schedule::stop_times::StopTime> for StopTime`:
the IR builder's conversion of one stop-time row to the integer wire
representation. -/
def stop_time_from_gtfs (value : GtfsStopTime) : StopTime where
  stop_id := value.stop_id
  arrival_time := time_str_to_int value.arrival_time
  departure_time := time_str_to_int value.departure_time
  stop_sequence := some value.stop_sequence

/-- C3 (bug evaluation): the IR builder's integer conversion of an
`"H:MM:SS"` origin string is little-endian `H + 60·M + 3600·S`, not the
claimed `H·3600 + M·60 + S`: on `"01:02:03"` it yields `10921`, not
`3723`, and the builder stores exactly this value in `arrival_time` /
`departure_time`; an absent time maps to an absent value. -/
theorem c3_time_str_to_int_bug :
    (∀ st : GtfsStopTime,
      (stop_time_from_gtfs st).arrival_time =
        time_str_to_int st.arrival_time ∧
      (stop_time_from_gtfs st).departure_time =
        time_str_to_int st.departure_time) ∧
    time_str_to_int (some "01:02:03") = some 10921 ∧
    10921 = 1 + 2 * 60 + 3 * 3600 ∧
    1 * 3600 + 2 * 60 + 3 = 3723 ∧
    time_str_to_int (some "01:02:03") ≠ some 3723 ∧
    time_str_to_int none = none :=
  ⟨fun _ => ⟨rfl, rfl⟩, by decide, by decide, by decide, by decide, rfl⟩

/-! ### The IR builder (`src/diff/ir.rs`)

Calendar dates are modelled as civil day numbers (`Nat`): the source's
`"YYYYMMDD"` strings are compared lexicographically, which on fixed-width
date strings is exactly the day-number order, and `chrono` weekday stepping
becomes `mod 7` arithmetic (day number `0` chosen to fall on a Monday).
`format!("{:04}{:02}{:02}", ...)` for `mask_start_date` is modelled by
`toString` of the day number (only injectivity of the formatting is ever
used).  The `f32` stop coordinates enter only through
`stop_lat.parse::<f32>()`; the model carries the parse result directly as
`Option (Option Int)` (field present? / parses?). -/

/-- A `calendar.txt` service row (weekday flags plus validity window). -/
structure GtfsService where
  monday : Bool
  tuesday : Bool
  wednesday : Bool
  thursday : Bool
  friday : Bool
  saturday : Bool
  sunday : Bool
  start_date : Nat
  end_date : Nat
deriving DecidableEq

/-- `gtfs_parsing::schedule::calendar::ExceptionType`. -/
inductive ExceptionType where
  | Added : ExceptionType
  | Removed : ExceptionType
deriving DecidableEq

/-- A `calendar_dates.txt` exception row. -/
structure GtfsServiceException where
  exception_type : ExceptionType
deriving DecidableEq

/-- `gtfs_parsing::schedule::trips::DirectionType`. -/
inductive DirectionType where
  | Uptown : DirectionType
  | Downtown : DirectionType
deriving DecidableEq

/-- A `trips.txt` row as consumed by the builder. -/
structure GtfsTrip where
  shape_id : Option String
  trip_headsign : Option String
  direction_id : Option DirectionType
  route_id : String
  service_id : String
deriving DecidableEq

structure GtfsShapePoint where
  shape_pt_lat : Int
  shape_pt_lon : Int
deriving DecidableEq

structure GtfsShape where
  shape_id : String
  points : List GtfsShapePoint
deriving DecidableEq

structure GtfsTransfer where
  from_stop_id : Option String
  to_stop_id : Option String
  min_transfer_time : Option Nat
deriving DecidableEq

/-- A `stops.txt` row; `stop_lat`/`stop_lon` carry the `parse::<f32>()`
outcome of the optional coordinate strings. -/
structure GtfsStop where
  stop_id : String
  stop_lat : Option (Option Int)
  stop_lon : Option (Option Int)
  stop_name : Option String
  parent_station : Option String
deriving DecidableEq

/-- The parsed `gtfs_parsing::schedule::Schedule` (the decoder is external;
only the shape of its output matters here).  `routes` is consumed only
through its key set. -/
structure GtfsSchedule where
  trips : String → Option GtfsTrip
  routes : String → Bool
  services : String → Option GtfsService
  service_exceptions : String → Option (Nat → Option GtfsServiceException)
  shapes : String → Option GtfsShape
  stops : String → Option GtfsStop
  stop_times : String → Option (List (Nat × GtfsStopTime))
  transfers : String → Option (List GtfsTransfer)

/-- The weekday flag of a service row for day-of-week `dow`
(`0` = Monday … `6` = Sunday). -/
def serviceActiveOnDow (svc : GtfsService) (dow : Nat) : Bool :=
  match dow with
  | 0 => svc.monday
  | 1 => svc.tuesday
  | 2 => svc.wednesday
  | 3 => svc.thursday
  | 4 => svc.friday
  | 5 => svc.saturday
  | _ => svc.sunday

/-- One day of the `date_mask` walk: the weekday flag guarded by the
service validity window, then overridden by a service exception for that
exact date if one exists. -/
def trip_active_on (s : GtfsSchedule) (sid : String) (date : Nat) : Bool :=
  let base : Bool :=
    match s.services sid with
    | some svc =>
      serviceActiveOnDow svc (date % 7) && decide (svc.start_date ≤ date) &&
        decide (date ≤ svc.end_date)
    | none => false
  match s.service_exceptions sid with
  | some excs =>
    match excs date with
    | some e => decide (e.exception_type = ExceptionType.Added)
    | none => base
  | none => base

/-- The `for day in 0..days` loop building `date_mask`
(`date_mask += 1 << day` on active days). -/
def compute_date_mask (s : GtfsSchedule) (sid : String) (start_date : Nat) :
    Nat → Nat
  | 0 => 0
  | d + 1 =>
    compute_date_mask s sid start_date d +
      (if trip_active_on s sid (start_date + d) = true then 2 ^ d else 0)

/-- The `TripIR` built for one surviving trip row. -/
def mk_trip_ir (s : GtfsSchedule) (tid : String) (t : GtfsTrip)
    (start_date days : Nat) : TripIR where
  trip_id := tid
  stop_times :=
    ((s.stop_times tid).getD []).map fun kv => (kv.1, stop_time_from_gtfs kv.2)
  headsign := t.trip_headsign
  shape_id := t.shape_id
  direction := t.direction_id.map fun d =>
    if d = DirectionType.Uptown then 0 else 1
  mask_start_date := toString start_date
  date_mask := compute_date_mask s t.service_id start_date days

/-- `ScheduleIR::try_from_schedule_with_dates`.  Routes are seeded from the
`routes` key set; each trip row with a non-zero `date_mask` is inserted
into `routes[t.route_id].trips[tid]` — the source guards the insert with
`if let Some(route) = routes.get_mut(route_id)`, so a trip naming an
unknown route is silently dropped and the build still returns an IR. -/
def try_from_schedule_with_dates (s : GtfsSchedule) (start_date days : Nat) :
    ScheduleIR where
  routes := fun rid =>
    if s.routes rid = true then
      some
        { route_id := rid,
          trips := fun tid =>
            match s.trips tid with
            | some t =>
              if t.route_id = rid ∧
                  compute_date_mask s t.service_id start_date days ≠ 0 then
                some (mk_trip_ir s tid t start_date days)
              else none
            | none => none }
    else none
  shapes := fun k =>
    (s.shapes k).map fun sh =>
      { shape_id := some sh.shape_id,
        points := sh.points.map fun p =>
          { lat := some p.shape_pt_lat, lon := some p.shape_pt_lon } }
  stops := fun k =>
    (s.stops k).map fun st =>
      { stop_id := some st.stop_id,
        stop_name := st.stop_name,
        parent_stop_id := st.parent_station,
        transfers_from := ((s.transfers st.stop_id).getD []).map fun t =>
          { from_stop_id := t.from_stop_id,
            to_stop_id := t.to_stop_id,
            min_transfer_time := t.min_transfer_time },
        route_ids := [],
        position :=
          match st.stop_lat, st.stop_lon with
          | some a, some b =>
            match a, b with
            | some lat, some lon => some { lat := some lat, lon := some lon }
            | _, _ => none
          | _, _ => none }

/-- C4 (amended): a trip naming an unknown `route_id` is silently omitted.
If a trip row's `route_id` is not a key of the schedule's routes, the build
still returns an IR; no route of that key exists in the result, and no
route of the result holds a trip under that trip's id. -/
theorem c4_unknown_route_trip_skipped (s : GtfsSchedule)
    (start_date days : Nat) (tid : String) (t : GtfsTrip)
    (ht : s.trips tid = some t) (hr : s.routes t.route_id = false) :
    (try_from_schedule_with_dates s start_date days).routes t.route_id =
      none ∧
    (∀ r ro,
      (try_from_schedule_with_dates s start_date days).routes r = some ro →
      ro.trips tid = none) := by
  constructor
  · simp [try_from_schedule_with_dates, hr]
  · intro r ro hro
    simp only [try_from_schedule_with_dates] at hro
    split at hro
    · rename_i hrt
      cases hro
      simp only [ht]
      split
      · rename_i hcond
        rw [hcond.1] at hr
        rw [hr] at hrt
        cases hrt
      · rfl
    · cases hro

/-- The service used by the concrete C4 input: active every weekday in a
wide validity window. -/
def exService : GtfsService where
  monday := true
  tuesday := true
  wednesday := true
  thursday := true
  friday := true
  saturday := true
  sunday := true
  start_date := 0
  end_date := 1000

/-- A trip row naming the unknown route `r2`. -/
def exGtfsTrip : GtfsTrip where
  shape_id := none
  trip_headsign := none
  direction_id := none
  route_id := "r2"
  service_id := "svc1"

/-- Concrete schedule: one known route `r1`, one trip `t1` on the unknown
route `r2` with an active service. -/
def exSchedC4 : GtfsSchedule where
  trips := fun tid => if tid = "t1" then some exGtfsTrip else none
  routes := fun rid => rid == "r1"
  services := fun sid => if sid = "svc1" then some exService else none
  service_exceptions := fun _ => none
  shapes := fun _ => none
  stops := fun _ => none
  stop_times := fun _ => none
  transfers := fun _ => none

/-- C4 counterexample: the claim's fatal-error behaviour does not happen.
On `exSchedC4` the trip `t1` has a non-zero `date_mask` (`1`) and names
the unknown route `r2`, yet the build succeeds: it returns an IR whose
route `r1` exists with no trip `t1`, and no route `r2` exists — the trip
is silently omitted instead of the build failing. -/
theorem c4_unknown_route_counterexample :
    compute_date_mask exSchedC4 "svc1" 0 1 = 1 ∧
    exSchedC4.trips "t1" = some exGtfsTrip ∧
    exSchedC4.routes "r2" = false ∧
    (try_from_schedule_with_dates exSchedC4 0 1).routes "r2" = none ∧
    ((try_from_schedule_with_dates exSchedC4 0 1).routes "r1").isSome =
      true ∧
    ((try_from_schedule_with_dates exSchedC4 0 1).routes "r1").bind
      (fun ro => ro.trips "t1") = none := by
  refine ⟨by decide, by decide, by decide, ?_, rfl, ?_⟩
  · simp [try_from_schedule_with_dates, exSchedC4]
  · simp [try_from_schedule_with_dates, exSchedC4, exGtfsTrip]

theorem c4_unknown_route_trip_skipped_witness :
    exSchedC4.trips "t1" = some exGtfsTrip ∧
    exSchedC4.routes exGtfsTrip.route_id = false ∧
    (∀ r ro,
      (try_from_schedule_with_dates exSchedC4 0 1).routes r = some ro →
      ro.trips "t1" = none) :=
  ⟨by decide, by decide,
    (c4_unknown_route_trip_skipped exSchedC4 0 1 "t1" exGtfsTrip
      (by decide) (by decide)).2⟩

/-! ### The history store (`src/server.rs`)

`HISTORY_LOCK`, `FULL_LOCK` and `DIFFS_LOCK` form the shared state; a
commit is `update_global_state`.  The cached `FullSchedule` and the stored
wire `ScheduleDiff`s are kept in IR/update form here, since the
`From` conversions to the wire vectors enumerate hash maps in unspecified
order; no claim inspects the serialized shape.  Timestamps (`u32` seconds)
are `Nat`. -/

def MAX_HISTORY_LEN : Nat := 10

/-- The origin's global state: the history ring, the cached newest full
schedule and the per-timestamp delta map (as an association list keyed by
the distinct history timestamps). -/
structure GlobalState where
  history : List (Nat × ScheduleIR × ScheduleUpdate)
  full : Option ScheduleIR
  diffs : List (Nat × ScheduleUpdate)

/-- State before the first commit. -/
def initState : GlobalState where
  history := []
  full := none
  diffs := []

/-- `update_global_state` (one commit at `timestamp`): evict the oldest
entry when the ring is full, push the new snapshot, cache the new full
schedule, and rebuild the delta map with `diff(schedule, pᵢ)` for every
retained snapshot `pᵢ`, storing the same diff as each entry's outgoing
update.  (The `combine`/`apply` consistency check in the source only logs;
the eviction's `diffs.remove` is subsumed by the full rebuild.) -/
def update_global_state (timestamp : Nat) (schedule : ScheduleIR)
    (st : GlobalState) : GlobalState :=
  let h1 := if st.history.length = MAX_HISTORY_LEN then st.history.drop 1
    else st.history
  let h2 := h1 ++ [(timestamp, schedule, ScheduleUpdate.empty)]
  { history := h2.map fun e => (e.1, e.2.1, get_diff schedule e.2.1),
    full := some schedule,
    diffs := h2.map fun e => (e.1, get_diff schedule e.2.1) }

/-- A sequence of commits applied to a state. -/
def commit_all (commits : List (Nat × ScheduleIR)) (st : GlobalState) :
    GlobalState :=
  commits.foldl (fun s c => update_global_state c.1 c.2 s) st

/-- The state invariant of the history store: bounded ring, delta keys
equal to the history timestamps (in order), strictly increasing
timestamps, and the full-schedule cache populated exactly once history
is. -/
def StateInv (st : GlobalState) : Prop :=
  st.history.length ≤ MAX_HISTORY_LEN ∧
  st.diffs.map (fun e => e.1) = st.history.map (fun e => e.1) ∧
  List.Pairwise (· < ·) (st.history.map fun e => e.1) ∧
  st.full.isSome = !st.history.isEmpty

theorem update_global_state_inv (timestamp : Nat) (schedule : ScheduleIR)
    (st : GlobalState) (hInv : StateInv st)
    (hts : ∀ t ∈ st.history.map (fun e => e.1), t < timestamp) :
    StateInv (update_global_state timestamp schedule st) ∧
    ∀ t ∈ (update_global_state timestamp schedule st).history.map
      (fun e => e.1), t = timestamp ∨ t ∈ st.history.map (fun e => e.1) := by
  obtain ⟨hlen, hkeys, hpair, hfull⟩ := hInv
  simp only [update_global_state, StateInv]
  rw [List.map_map, List.map_map]
  have hcomp1 : ((fun e : Nat × ScheduleUpdate => e.1) ∘ fun
      e : Nat × ScheduleIR × ScheduleUpdate =>
      (e.1, get_diff schedule e.2.1)) = fun e => e.1 := rfl
  have hcomp2 : ((fun e : Nat × ScheduleIR × ScheduleUpdate => e.1) ∘ fun
      e : Nat × ScheduleIR × ScheduleUpdate =>
      (e.1, e.2.1, get_diff schedule e.2.1)) = fun e => e.1 := rfl
  rw [hcomp1, hcomp2]
  generalize hh1 : (if st.history.length = MAX_HISTORY_LEN then
    st.history.drop 1 else st.history) = h1
  have hsub : h1.Sublist st.history := by
    rw [← hh1]
    split
    · exact List.drop_sublist 1 st.history
    · exact List.Sublist.refl st.history
  have hsubts : ∀ t ∈ h1.map (fun e => e.1), t ∈ st.history.map
      (fun e => e.1) := fun t ht => (hsub.map (fun e => e.1)).subset ht
  have hl1 : h1.length + 1 ≤ MAX_HISTORY_LEN := by
    rw [← hh1]
    split
    · rename_i heq
      rw [List.length_drop, heq]
      decide
    · rename_i hne
      rcases Nat.lt_or_ge st.history.length MAX_HISTORY_LEN with h | h
      · exact h
      · exact absurd (Nat.le_antisymm hlen h) hne
  refine ⟨⟨?_, rfl, ?_, ?_⟩, ?_⟩
  · rw [List.length_map, List.length_append]
    simpa using hl1
  · rw [List.map_append, List.pairwise_append]
    refine ⟨hpair.sublist (hsub.map (fun e => e.1)), by simp, ?_⟩
    intro a ha b hb
    rw [List.mem_map] at hb
    obtain ⟨e, he, rfl⟩ := hb
    have : e = (timestamp, schedule, ScheduleUpdate.empty) := by
      simpa using he
    subst this
    exact hts a (hsubts a ha)
  · simp
  · intro t ht
    rw [List.map_append, List.mem_append] at ht
    rcases ht with h | h
    · exact Or.inr (hsubts t h)
    · left
      simpa using h

theorem commit_all_inv (commits : List (Nat × ScheduleIR))
    (st : GlobalState) (hInv : StateInv st)
    (hts : ∀ t ∈ st.history.map (fun e => e.1), ∀ c ∈ commits, t < c.1)
    (hsorted : List.Pairwise (fun a b => a.1 < b.1) commits) :
    StateInv (commit_all commits st) := by
  induction commits generalizing st with
  | nil => exact hInv
  | cons c cs ih =>
    have hstep := update_global_state_inv c.1 c.2 st hInv
      (fun t ht => hts t ht c (List.mem_cons_self c cs))
    refine ih (update_global_state c.1 c.2 st) hstep.1 ?_
      (hsorted.sublist (List.sublist_cons_self c cs))
    intro t ht c2 hc2
    rcases hstep.2 t ht with rfl | hmem
    · exact (List.pairwise_cons.mp hsorted).1 c2 hc2
    · exact hts t hmem c2 (List.mem_cons_of_mem c hc2)

/-- C6: bounded, consistent history.  After any sequence of commits whose
timestamps strictly increase, the history holds at most
`MAX_HISTORY_LEN = 10` entries, the key list of the delta map equals the
history's timestamp list (hence equal key sets), and the history's
timestamps strictly increase. -/
theorem c6_bounded_history (commits : List (Nat × ScheduleIR))
    (hsorted : List.Pairwise (fun a b => a.1 < b.1) commits) :
    (commit_all commits initState).history.length ≤ MAX_HISTORY_LEN ∧
    (commit_all commits initState).diffs.map (fun e => e.1) =
      (commit_all commits initState).history.map (fun e => e.1) ∧
    List.Pairwise (· < ·)
      ((commit_all commits initState).history.map fun e => e.1) := by
  have h := commit_all_inv commits initState
    ⟨by decide, rfl, List.Pairwise.nil, rfl⟩
    (fun t ht => by simp [initState] at ht) hsorted
  exact ⟨h.1, h.2.1, h.2.2.1⟩

theorem c6_bounded_history_witness :
    List.Pairwise (fun a b : Nat × ScheduleIR => a.1 < b.1)
      [(1, emptyIR), (2, oneStopIR), (3, emptyIR)] ∧
    (commit_all [(1, emptyIR), (2, oneStopIR), (3, emptyIR)]
      initState).history.length ≤ MAX_HISTORY_LEN ∧
    List.Pairwise (· < ·)
      ((commit_all [(1, emptyIR), (2, oneStopIR), (3, emptyIR)]
        initState).history.map fun e => e.1) := by
  have hs : List.Pairwise (fun a b : Nat × ScheduleIR => a.1 < b.1)
      [(1, emptyIR), (2, oneStopIR), (3, emptyIR)] := by
    refine List.Pairwise.cons ?_ (List.Pairwise.cons ?_ ?_) <;> simp
  have h := c6_bounded_history [(1, emptyIR), (2, oneStopIR), (3, emptyIR)] hs
  exact ⟨hs, h.1, h.2.2⟩

/-! ### `GetSchedule` (`src/server.rs`) -/

/-- The `ScheduleResponse` wire message (payloads kept in IR/update
form). -/
structure ScheduleResponseM where
  full_schedule : Option ScheduleIR
  schedule_diff : Option ScheduleUpdate
  timestamp : Option Nat

/-- `HashMap::contains_key`/`get` on the delta map (keys are distinct, so
first match is the match). -/
def lookupKey {A : Type} (t : Nat) : List (Nat × A) → Option A
  | [] => none
  | (k, v) :: rest => if k = t then some v else lookupKey t rest

/-- `ScheduleService::get_schedule`: the client timestamp defaults to `0`;
a stored delta for it is returned as `schedule_diff` with the newest
history timestamp, otherwise the cached full schedule is returned, and
before the first commit the call fails with an internal status
(`"Unable to find data"`). -/
def get_schedule (st : GlobalState) (reqTimestamp : Option Nat) :
    Except String ScheduleResponseM :=
  let timestamp := reqTimestamp.getD 0
  let rec_timestamp := (st.history.getLast?).map fun e => e.1
  match lookupKey timestamp st.diffs with
  | some d =>
    Except.ok { full_schedule := none, schedule_diff := some d,
                timestamp := rec_timestamp }
  | none =>
    match st.full with
    | some sched =>
      Except.ok { full_schedule := some sched, schedule_diff := none,
                  timestamp := rec_timestamp }
    | none => Except.error "Unable to find data"

theorem lookupKey_isSome_mem {A : Type} (t : Nat) (l : List (Nat × A))
    (h : (lookupKey t l).isSome = true) : t ∈ l.map (fun e => e.1) := by
  induction l with
  | nil => simp [lookupKey] at h
  | cons e rest ih =>
    rcases e with ⟨k, v⟩
    by_cases hk : k = t
    · simp [hk]
    · simp only [lookupKey, if_neg hk] at h
      simp [ih h]

theorem getLast?_max_of_sorted (l : List Nat)
    (hpair : List.Pairwise (· < ·) l) (m : Nat) (hm : l.getLast? = some m) :
    m ∈ l ∧ ∀ x ∈ l, x ≤ m := by
  induction l with
  | nil => simp at hm
  | cons a rest ih =>
    cases hrest : rest with
    | nil =>
      subst hrest
      simp at hm
      subst hm
      simp
    | cons b rest2 =>
      subst hrest
      rw [List.getLast?_cons_cons] at hm
      have hr := ih ((List.pairwise_cons.mp hpair).2) hm
      refine ⟨List.mem_cons_of_mem a hr.1, ?_⟩
      intro x hx
      rcases List.mem_cons.mp hx with rfl | hx2
      · exact Nat.le_of_lt ((List.pairwise_cons.mp hpair).1 m hr.1)
      · exact hr.2 x hx2

/-- C7: `GetSchedule` read semantics on any state satisfying the history
invariant.  A stored delta for the client's timestamp (default `0`) is
returned, with no full schedule, exactly when that timestamp is a key of
the delta map; otherwise the cached full newest schedule is returned with
no delta; every successful response carries exactly one of the two
payloads and the newest history timestamp; with no data at all the call
fails with the internal status. -/
theorem c7_get_schedule_semantics (st : GlobalState)
    (reqTimestamp : Option Nat) (hInv : StateInv st) :
    ((lookupKey (reqTimestamp.getD 0) st.diffs).isSome = true →
      get_schedule st reqTimestamp = Except.ok
        { full_schedule := none,
          schedule_diff := lookupKey (reqTimestamp.getD 0) st.diffs,
          timestamp := st.history.getLast?.map fun e => e.1 }) ∧
    (lookupKey (reqTimestamp.getD 0) st.diffs = none →
      ∀ sched, st.full = some sched →
      get_schedule st reqTimestamp = Except.ok
        { full_schedule := some sched, schedule_diff := none,
          timestamp := st.history.getLast?.map fun e => e.1 }) ∧
    (∀ r, get_schedule st reqTimestamp = Except.ok r →
      (r.full_schedule = none ∧ (r.schedule_diff).isSome = true) ∨
      ((r.full_schedule).isSome = true ∧ r.schedule_diff = none)) ∧
    (∀ r, get_schedule st reqTimestamp = Except.ok r →
      ∃ tN, r.timestamp = some tN ∧
        tN ∈ st.history.map (fun e => e.1) ∧
        ∀ x ∈ st.history.map (fun e => e.1), x ≤ tN) ∧
    (st.history = [] → get_schedule st reqTimestamp =
      Except.error "Unable to find data") := by
  obtain ⟨hlen, hkeys, hpair, hfull⟩ := hInv
  have hlast : st.history ≠ [] →
      ∃ tN, (st.history.getLast?.map fun e => e.1) = some tN ∧
        tN ∈ st.history.map (fun e => e.1) ∧
        ∀ x ∈ st.history.map (fun e => e.1), x ≤ tN := by
    intro hne
    have hne2 : st.history.map (fun e => e.1) ≠ [] := by
      intro h
      exact hne (List.map_eq_nil_iff.mp h)
    obtain ⟨tN, htN⟩ :=
      Option.isSome_iff_exists.mp (List.getLast?_isSome.mpr hne2)
    have hmap : (st.history.getLast?.map fun e => e.1) =
        (st.history.map fun e => e.1).getLast? :=
      (List.getLast?_map _ _).symm
    have hmax := getLast?_max_of_sorted _ hpair tN htN
    exact ⟨tN, by rw [hmap, htN], hmax.1, hmax.2⟩
  cases hl : lookupKey (reqTimestamp.getD 0) st.diffs with
  | some d =>
    have hne : st.history ≠ [] := by
      intro hemp
      have hmem := lookupKey_isSome_mem (reqTimestamp.getD 0) st.diffs
        (by rw [hl]; rfl)
      rw [hkeys, hemp] at hmem
      simp at hmem
    refine ⟨fun _ => ?_, fun hnone => absurd hnone (by simp),
      fun r hr => ?_, fun r hr => ?_, fun hemp => absurd hemp hne⟩
    · simp [get_schedule, hl]
    · have hok : get_schedule st reqTimestamp = Except.ok
          ⟨none, some d, st.history.getLast?.map fun e => e.1⟩ := by
        simp [get_schedule, hl]
      have : r = ⟨none, some d, st.history.getLast?.map fun e => e.1⟩ := by
        simpa using hr.symm.trans hok
      subst this
      left
      exact ⟨rfl, rfl⟩
    · have hok : get_schedule st reqTimestamp = Except.ok
          ⟨none, some d, st.history.getLast?.map fun e => e.1⟩ := by
        simp [get_schedule, hl]
      have : r = ⟨none, some d, st.history.getLast?.map fun e => e.1⟩ := by
        simpa using hr.symm.trans hok
      subst this
      exact hlast hne
  | none =>
    cases hf : st.full with
    | some sched =>
      have hne : st.history ≠ [] := by
        intro hemp
        rw [hf, hemp] at hfull
        simp at hfull
      refine ⟨fun hsome => absurd hsome (by simp),
        fun _ sched2 hsched2 => ?_, fun r hr => ?_, fun r hr => ?_,
        fun hemp => absurd hemp hne⟩
      · have : sched2 = sched := (Option.some_inj.mp hsched2).symm
        subst this
        simp [get_schedule, hl, hf]
      · have hok : get_schedule st reqTimestamp = Except.ok
            ⟨some sched, none, st.history.getLast?.map fun e => e.1⟩ := by
          simp [get_schedule, hl, hf]
        have : r = ⟨some sched, none,
            st.history.getLast?.map fun e => e.1⟩ := by
          simpa using hr.symm.trans hok
        subst this
        right
        exact ⟨rfl, rfl⟩
      · have hok : get_schedule st reqTimestamp = Except.ok
            ⟨some sched, none, st.history.getLast?.map fun e => e.1⟩ := by
          simp [get_schedule, hl, hf]
        have : r = ⟨some sched, none,
            st.history.getLast?.map fun e => e.1⟩ := by
          simpa using hr.symm.trans hok
        subst this
        exact hlast hne
    | none =>
      have herr : get_schedule st reqTimestamp =
          Except.error "Unable to find data" := by
        simp [get_schedule, hl, hf]
      exact ⟨fun hsome => absurd hsome (by simp),
        fun _ sched2 hsched2 => absurd hsched2 (by simp),
        fun r hr => absurd (hr.symm.trans herr) (by simp),
        fun r hr => absurd (hr.symm.trans herr) (by simp),
        fun _ => herr⟩

/-- The state after one commit at timestamp `5`. -/
def exState : GlobalState := update_global_state 5 emptyIR initState

theorem c7_get_schedule_semantics_witness :
    StateInv exState ∧
    get_schedule exState (some 5) = Except.ok
      ⟨none, lookupKey 5 exState.diffs,
        exState.history.getLast?.map fun e => e.1⟩ := by
  have hInv : StateInv exState := by
    refine ⟨?_, rfl, ?_, rfl⟩
    · simp [exState, update_global_state, initState, MAX_HISTORY_LEN]
    · show List.Pairwise (· < ·) (exState.history.map fun e => e.1)
      simp [exState, update_global_state, initState]
  exact ⟨hInv, (c7_get_schedule_semantics exState (some 5) hInv).1 rfl⟩

/-! ### The response cacher (`src/cacher.rs`)

`CACHED_SCHEDULE` maps raw request body bytes to
`(response_body_bytes, response_headers, response_trailers)`.  Bytes are
`List Nat`, a header map is its entry list, and the cache is an
association list with `HashMap::insert` semantics (replace on an existing
key, append otherwise), so its length is the `HashMap` length. -/

def MAX_CACHE_ENTRIES : Nat := 20

/-- A cached `(body, headers, trailers)` triple. -/
structure CachedResponse where
  body : List Nat
  headers : List (String × String)
  trailers : List (String × String)
deriving DecidableEq

/-- `HashMap::insert`: replace the value under an existing key, otherwise
add a new entry. -/
def hashmap_insert {A B : Type} [DecidableEq A] (k : A) (v : B) :
    List (A × B) → List (A × B)
  | [] => [(k, v)]
  | (k2, v2) :: rest =>
    if k2 = k then (k2, v) :: rest else (k2, v2) :: hashmap_insert k v rest

/-- `add_cached_value`: refuse to touch a cache already at (or beyond)
capacity, otherwise insert. -/
def add_cached_value (key : List Nat) (resp : CachedResponse)
    (cache : List (List Nat × CachedResponse)) :
    List (List Nat × CachedResponse) :=
  if MAX_CACHE_ENTRIES ≤ cache.length then cache
  else hashmap_insert key resp cache

/-- The only cache mutations in `src/cacher.rs`: the guarded insert of
`add_cached_value` and the `clear()` of `check_cache_validity`. -/
inductive CacheOp where
  | add : List Nat → CachedResponse → CacheOp
  | clear : CacheOp

def cache_step (cache : List (List Nat × CachedResponse)) :
    CacheOp → List (List Nat × CachedResponse)
  | CacheOp.add k v => add_cached_value k v cache
  | CacheOp.clear => []

theorem hashmap_insert_length {A B : Type} [DecidableEq A] (k : A) (v : B)
    (l : List (A × B)) :
    (hashmap_insert k v l).length ≤ l.length + 1 := by
  induction l with
  | nil => simp [hashmap_insert]
  | cons e rest ih =>
    rcases e with ⟨k2, v2⟩
    by_cases hk : k2 = k <;> simp [hashmap_insert, hk]
    exact ih

/-- C9: bounded cache without eviction.  Starting from the empty cache,
any sequence of cache operations keeps at most
`MAX_CACHE_ENTRIES = 20` entries; an insert attempted at (or beyond)
capacity returns the cache completely unchanged; and any single insert
preserves the bound. -/
theorem c9_cache_bound :
    (∀ ops : List CacheOp,
      (ops.foldl cache_step []).length ≤ MAX_CACHE_ENTRIES) ∧
    (∀ key resp cache, MAX_CACHE_ENTRIES ≤ cache.length →
      add_cached_value key resp cache = cache) ∧
    (∀ key resp cache, cache.length ≤ MAX_CACHE_ENTRIES →
      (add_cached_value key resp cache).length ≤ MAX_CACHE_ENTRIES) := by
  have hstep : ∀ key resp cache,
      cache.length ≤ MAX_CACHE_ENTRIES →
      (add_cached_value key resp cache).length ≤ MAX_CACHE_ENTRIES := by
    intro key resp cache hlen
    unfold add_cached_value
    split
    · exact hlen
    · rename_i hlt
      have h2 : cache.length + 1 ≤ MAX_CACHE_ENTRIES :=
        Nat.lt_of_not_le hlt
      exact Nat.le_trans (hashmap_insert_length key resp cache) h2
  refine ⟨?_, ?_, hstep⟩
  · have haux : ∀ (ops : List CacheOp)
        (cache : List (List Nat × CachedResponse)),
        cache.length ≤ MAX_CACHE_ENTRIES →
        (ops.foldl cache_step cache).length ≤ MAX_CACHE_ENTRIES := by
      intro ops
      induction ops with
      | nil => exact fun _ h => h
      | cons op rest ih =>
        intro cache hle
        rw [List.foldl_cons]
        refine ih _ ?_
        cases op with
        | add k v => exact hstep k v cache hle
        | clear => simp [cache_step, MAX_CACHE_ENTRIES]
    exact fun ops => haux ops [] (by simp [MAX_CACHE_ENTRIES])
  · intro key resp cache hge
    unfold add_cached_value
    rw [if_pos hge]

/-- A cache filled to exactly `MAX_CACHE_ENTRIES` distinct keys. -/
def fullCache : List (List Nat × CachedResponse) :=
  (List.range MAX_CACHE_ENTRIES).map fun i => ([i], ⟨[], [], []⟩)

theorem c9_cache_bound_witness :
    MAX_CACHE_ENTRIES ≤ fullCache.length ∧
    add_cached_value [99] ⟨[1], [], []⟩ fullCache = fullCache :=
  ⟨by simp [fullCache],
    c9_cache_bound.2.1 [99] ⟨[1], [], []⟩ fullCache (by simp [fullCache])⟩
